import Mathlib

/-!
Verification of the SAD labor-market ETL pipeline
(`src/scripts/compute_empregabilidade.py`, `compute_salario_medio_setor.py`,
`merge_rais_cnaes.py`, `normalize_salario_demanda.py`).

Python `float` values are modelled by `ℚ`; Python strings by `String` /
`List Char`; Python dictionaries by association lists with explicit lookup
functions.  Each script is embedded in a namespace bearing its name.
-/

namespace SAD

/-! ### Python string primitives -/

/-- Whitespace characters removed by Python `str.strip()` (ASCII subset). -/
def isSpaceCh (c : Char) : Bool :=
  c = ' ' || c = '\t' || c = '\n' || c = '\r' || c = '\x0b' || c = '\x0c'

/-- `str.strip()`: drop leading and trailing whitespace. -/
def trimChars (l : List Char) : List Char :=
  ((l.dropWhile isSpaceCh).reverse.dropWhile isSpaceCh).reverse

/-- `s.replace('"', "")`: drop every double-quote character. -/
def stripQuotes (l : List Char) : List Char :=
  l.filter (fun c => c ≠ '"')

/-- `s.replace(",", ".")`. -/
def commaToDot (l : List Char) : List Char :=
  l.map (fun c => if c = ',' then '.' else c)

/-- `s.replace(".", "")`. -/
def dropDots (l : List Char) : List Char :=
  l.filter (fun c => c ≠ '.')

def countDot (l : List Char) : ℕ := l.count '.'

def countComma (l : List Char) : ℕ := l.count ','

/-- Python `str.strip()` at `String` level. -/
def pystrip (s : String) : String := String.mk (trimChars s.data)

/-! ### Model of Python `float(str)`

Modelled from the CPython builtin (external to this repository): an optional
sign, then digits with at most one decimal point, then an optional
`e`/`E`-exponent; surrounding whitespace is ignored.  The words `inf`/`nan`
and digit-group underscores are left out of the model (no claim involves
them); any other input that fails this grammar raises `ValueError` in
Python, i.e. yields `none` here.  The parsed value is first produced as an
integer pair `(n, s)` denoting `n * 10 ^ s` and converted to `ℚ` at the
end, keeping the parsing itself inside kernel-computable arithmetic. -/

def isDigitCh (c : Char) : Bool := '0' ≤ c && c ≤ '9'

def digitVal (c : Char) : ℕ := c.toNat - 48

def digitsToNat (l : List Char) : ℕ :=
  l.foldl (fun n c => 10 * n + digitVal c) 0

/-- Split a list at the first character satisfying `p`; the matching
character is returned together with the remainder. -/
def splitFirst (p : Char → Bool) : List Char → List Char × Option (Char × List Char)
  | [] => ([], none)
  | c :: r =>
    if p c then ([], some (c, r))
    else
      let s := splitFirst p r
      (c :: s.1, s.2)

/-- Optional leading sign: returns (isNegative, rest). -/
def parseSign : List Char → Bool × List Char
  | '-' :: r => (true, r)
  | '+' :: r => (false, r)
  | l => (false, l)

/-- The mantissa: digits with at most one decimal point and at least one
digit overall.  Returns the digit string's value and the length of the
fractional part, denoting `value * 10 ^ (-fracLen)`. -/
def mantissaParts (l : List Char) : Option (ℕ × ℕ) :=
  let sp := splitFirst (fun c => c = '.') l
  match sp.2 with
  | none =>
    if !sp.1.isEmpty && sp.1.all isDigitCh then some (digitsToNat sp.1, 0) else none
  | some cf =>
    if (!sp.1.isEmpty || !cf.2.isEmpty) && sp.1.all isDigitCh && cf.2.all isDigitCh then
      some (digitsToNat (sp.1 ++ cf.2), cf.2.length)
    else none

/-- The exponent after `e`/`E`: optional sign then at least one digit. -/
def expZ (l : List Char) : Option ℤ :=
  let s := parseSign l
  if !s.2.isEmpty && s.2.all isDigitCh then
    some (if s.1 then -(digitsToNat s.2 : ℤ) else (digitsToNat s.2 : ℤ))
  else none

/-- `float` on an already-trimmed character list, as `(n, s)` with value
`n * 10 ^ s`. -/
def pyFloatParts (l : List Char) : Option (ℤ × ℤ) :=
  let sgn := parseSign l
  let me := splitFirst (fun c => c = 'e' || c = 'E') sgn.2
  let base : Option (ℤ × ℤ) :=
    match me.2 with
    | none => (mantissaParts me.1).map (fun p => ((p.1 : ℤ), -(p.2 : ℤ)))
    | some ce =>
      match mantissaParts me.1, expZ ce.2 with
      | some p, some e => some ((p.1 : ℤ), e - (p.2 : ℤ))
      | _, _ => none
  base.map (fun p => (if sgn.1 then -p.1 else p.1, p.2))

def partsToQ (p : ℤ × ℤ) : ℚ := (p.1 : ℚ) * (10 : ℚ) ^ p.2

/-- `float(s)` : trims whitespace, parses, converts to `ℚ`. -/
def pyFloatQ (l : List Char) : Option ℚ :=
  (pyFloatParts (trimChars l)).map partsToQ

theorem pyFloatQ_eq_some {l : List Char} {p : ℤ × ℤ}
    (h : pyFloatParts (trimChars l) = some p) : pyFloatQ l = some (partsToQ p) := by
  simp [pyFloatQ, h]

theorem pyFloatQ_eq_none {l : List Char} (h : pyFloatParts (trimChars l) = none) :
    pyFloatQ l = none := by
  simp [pyFloatQ, h]

/-! ### Counting lemmas used to compare the two `parse_decimal` variants -/

theorem splitFirst_eq (p : Char → Bool) (l : List Char) :
    ((splitFirst p l).2 = none ∧ (splitFirst p l).1 = l) ∨
    (∃ c b, (splitFirst p l).2 = some (c, b) ∧ p c = true ∧
      l = (splitFirst p l).1 ++ c :: b) := by
  induction l with
  | nil => exact Or.inl ⟨rfl, rfl⟩
  | cons c r ih =>
    by_cases hc : p c
    · exact Or.inr ⟨c, r, by simp [splitFirst, hc], hc, by simp [splitFirst, hc]⟩
    · rcases ih with ⟨h1, h2⟩ | ⟨d, b, h1, h2, h3⟩
      · exact Or.inl ⟨by simp [splitFirst, hc, h1], by simp [splitFirst, hc, h2]⟩
      · refine Or.inr ⟨d, b, by simp [splitFirst, hc, h1], h2, ?_⟩
        simp [splitFirst, hc]
        exact h3

theorem count_parseSign (c : Char) (hm : c ≠ '-') (hp : c ≠ '+') (l : List Char) :
    (parseSign l).2.count c = l.count c := by
  unfold parseSign
  split
  · simp [List.count_cons, Ne.symm hm]
  · simp [List.count_cons, Ne.symm hp]
  · rfl

theorem count_eq_zero_of_all_digits (c : Char) (hc : isDigitCh c = false)
    {l : List Char} (h : l.all isDigitCh = true) : l.count c = 0 := by
  refine List.count_eq_zero.mpr fun hmem => ?_
  have := List.all_eq_true.mp h _ hmem
  rw [hc] at this
  exact Bool.false_ne_true this

theorem countDot_mantissaParts {l : List Char} {q : ℕ × ℕ}
    (h : mantissaParts l = some q) : countDot l ≤ 1 := by
  rcases splitFirst_eq (fun c => c = '.') l with ⟨h1, h2⟩ | ⟨c, b, h1, h2, h3⟩
  · simp only [mantissaParts, h1] at h
    split at h
    · rename_i hcond
      have hall : l.all isDigitCh = true := by
        rw [← h2]
        exact ((Bool.and_eq_true _ _).mp hcond).2
      have := count_eq_zero_of_all_digits '.' (by decide) hall
      simp only [countDot]
      omega
    · exact absurd h (by simp)
  · simp only [mantissaParts, h1] at h
    split at h
    · rename_i hcond
      have h' := (Bool.and_eq_true _ _).mp hcond
      have hip : (splitFirst (fun c => c = '.') l).1.all isDigitCh = true :=
        ((Bool.and_eq_true _ _).mp h'.1).2
      have hfp : b.all isDigitCh = true := h'.2
      have hc : c = '.' := of_decide_eq_true h2
      subst hc
      have e1 := count_eq_zero_of_all_digits '.' (by decide) hip
      have e2 := count_eq_zero_of_all_digits '.' (by decide) hfp
      rw [h3]
      simp only [countDot, List.count_append, List.count_cons, e1, e2]
      simp
    · exact absurd h (by simp)

theorem countDot_expZ {l : List Char} {e : ℤ} (h : expZ l = some e) :
    countDot l = 0 := by
  simp only [expZ] at h
  split at h
  · rename_i hcond
    have hall : (parseSign l).2.all isDigitCh = true := ((Bool.and_eq_true _ _).mp hcond).2
    have h0 : (parseSign l).2.count '.' = 0 :=
      count_eq_zero_of_all_digits '.' (by decide) hall
    have := count_parseSign '.' (by decide) (by decide) l
    unfold countDot
    omega
  · exact absurd h (by simp)

theorem countDot_pyFloatParts {l : List Char} {p : ℤ × ℤ}
    (h : pyFloatParts l = some p) : countDot l ≤ 1 := by
  have hsgn : (parseSign l).2.count '.' = l.count '.' :=
    count_parseSign '.' (by decide) (by decide) l
  rcases splitFirst_eq (fun c => c = 'e' || c = 'E') (parseSign l).2 with
    ⟨h1, h2⟩ | ⟨c, b, h1, h2, h3⟩
  · simp only [pyFloatParts, h1] at h
    rcases hm : mantissaParts (splitFirst (fun c => c = 'e' || c = 'E') (parseSign l).2).1 with
      _ | q0 <;> rw [hm] at h
    · exact absurd h (by simp)
    have := countDot_mantissaParts hm
    rw [h2] at this
    unfold countDot at this ⊢
    omega
  · simp only [pyFloatParts, h1] at h
    rcases hm : mantissaParts (splitFirst (fun c => c = 'e' || c = 'E') (parseSign l).2).1 with
      _ | q0 <;> rw [hm] at h
    · exact absurd h (by simp)
    rcases he : expZ b with _ | e0 <;> rw [he] at h
    · exact absurd h (by simp)
    have hcne : ('.' : Char) ≠ c := by
      rcases (Bool.or_eq_true _ _).mp h2 with h' | h' <;>
        · have := of_decide_eq_true h'
          subst this
          decide
    have hmle := countDot_mantissaParts hm
    have heq0 := countDot_expZ he
    have h3c := congrArg (List.count '.') h3
    rw [List.count_append] at h3c
    have hcc : c ≠ '.' := fun hEq => hcne hEq.symm
    have hbeq : (c == '.') = false := by simp [hcc]
    simp only [countDot, List.count_cons, hbeq, if_false, Bool.false_eq_true] at h3c hmle heq0 ⊢
    omega

theorem countDot_trimChars (l : List Char) : countDot (trimChars l) = countDot l := by
  have hdrop : ∀ m : List Char, (m.dropWhile isSpaceCh).count '.' = m.count '.' := by
    intro m
    induction m with
    | nil => rfl
    | cons a r ih =>
      by_cases ha : isSpaceCh a
      · have hane : a ≠ '.' := by
          intro hEq; subst hEq; exact absurd ha (by decide)
        simp [List.dropWhile, ha, ih, List.count_cons, hane]
      · simp [List.dropWhile, ha]
  unfold trimChars countDot
  rw [List.count_reverse, hdrop, List.count_reverse, hdrop]

theorem countComma_trimChars (l : List Char) : countComma (trimChars l) = countComma l := by
  have hdrop : ∀ m : List Char, (m.dropWhile isSpaceCh).count ',' = m.count ',' := by
    intro m
    induction m with
    | nil => rfl
    | cons a r ih =>
      by_cases ha : isSpaceCh a
      · have hane : a ≠ ',' := by
          intro hEq; subst hEq; exact absurd ha (by decide)
        simp [List.dropWhile, ha, ih, List.count_cons, hane]
      · simp [List.dropWhile, ha]
  unfold trimChars countComma
  rw [List.count_reverse, hdrop, List.count_reverse, hdrop]

theorem countDot_commaToDot (l : List Char) :
    countDot (commaToDot l) = countDot l + countComma l := by
  induction l with
  | nil => rfl
  | cons c r ih =>
    by_cases hc : c = ','
    · subst hc
      simp [commaToDot, countDot, countComma, List.count_cons] at ih ⊢
      omega
    · have hne : ¬ (if c = ',' then '.' else c) = '.' ∨ c = '.' := by
        by_cases hd : c = '.'
        · exact Or.inr hd
        · exact Or.inl (by simp [hc, hd])
      simp only [commaToDot, List.map_cons, countDot, countComma, List.count_cons] at ih ⊢
      simp [hc] at *
      omega

theorem commaToDot_of_no_comma {l : List Char} (h : countComma l = 0) :
    commaToDot l = l := by
  have hmem : ',' ∉ l := List.count_eq_zero.mp h
  unfold commaToDot
  conv_rhs => rw [← List.map_id l]
  refine List.map_congr_left fun c hc => ?_
  have : c ≠ ',' := fun hEq => hmem (hEq ▸ hc)
  simp [this]

theorem dropDots_of_no_dot {l : List Char} (h : countDot l = 0) :
    dropDots l = l := by
  have hmem : '.' ∉ l := List.count_eq_zero.mp h
  unfold dropDots
  refine List.filter_eq_self.mpr fun c hc => ?_
  have : c ≠ '.' := fun hEq => hmem (hEq ▸ hc)
  simp [this]

end SAD

namespace SAD.normalize_salario_demanda

/-- `parse_decimal` from `normalize_salario_demanda.py` (lines 38-52):
strip whitespace, return 0.0 on empty, remove double quotes, then try
`float(s)` directly and `float(s.replace(".", "").replace(",", "."))`,
returning 0.0 when both fail. -/
def parse_decimal (value : Option String) : ℚ :=
  match value with
  | none => 0
  | some v =>
    let s0 := SAD.trimChars v.data
    if s0.isEmpty then 0
    else
      let s := SAD.stripQuotes s0
      match SAD.pyFloatQ s with
      | some q => q
      | none =>
        match SAD.pyFloatQ (SAD.commaToDot (SAD.dropDots s)) with
        | some q => q
        | none => 0

theorem parse_decimal_first_stage {v : String} {q : ℚ}
    (h : SAD.pyFloatQ (SAD.stripQuotes (SAD.trimChars v.data)) = some q) :
    parse_decimal (some v) = q := by
  have hne : (SAD.trimChars v.data).isEmpty = false := by
    cases hl : SAD.trimChars v.data with
    | nil =>
      rw [hl] at h
      have hn : SAD.pyFloatQ (SAD.stripQuotes ([] : List Char)) = none :=
        SAD.pyFloatQ_eq_none (by decide)
      rw [hn] at h
      exact absurd h (by simp)
    | cons a r => rfl
  simp [parse_decimal, hne, h]

theorem parse_decimal_second_stage {v : String} {q : ℚ}
    (h1 : SAD.pyFloatQ (SAD.stripQuotes (SAD.trimChars v.data)) = none)
    (h2 : SAD.pyFloatQ (SAD.commaToDot (SAD.dropDots (SAD.stripQuotes (SAD.trimChars v.data)))) = some q) :
    parse_decimal (some v) = q := by
  by_cases h0 : (SAD.trimChars v.data).isEmpty
  · exfalso
    have hl : SAD.trimChars v.data = [] := by simpa using h0
    rw [hl] at h2
    have hn : SAD.pyFloatQ (SAD.commaToDot (SAD.dropDots (SAD.stripQuotes ([] : List Char)))) = none :=
      SAD.pyFloatQ_eq_none (by decide)
    rw [hn] at h2
    exact absurd h2 (by simp)
  · simp [parse_decimal, h0, h1, h2]

theorem parse_decimal_both_fail {v : String}
    (h1 : SAD.pyFloatQ (SAD.stripQuotes (SAD.trimChars v.data)) = none)
    (h2 : SAD.pyFloatQ (SAD.commaToDot (SAD.dropDots (SAD.stripQuotes (SAD.trimChars v.data)))) = none) :
    parse_decimal (some v) = 0 := by
  by_cases h0 : (SAD.trimChars v.data).isEmpty <;> simp [parse_decimal, h0, h1, h2]

end SAD.normalize_salario_demanda

namespace SAD.compute_salario_medio_setor

/-- `parse_decimal` from `compute_salario_medio_setor.py` (lines 57-84):
strip whitespace, return 0.0 on empty, remove double quotes, then try
`float(s)`, `float(s.replace(",", "."))`, and
`float(s.replace(".", "").replace(",", "."))` in order, returning 0.0 when
all three fail. -/
def parse_decimal (value : Option String) : ℚ :=
  match value with
  | none => 0
  | some v =>
    let s0 := SAD.trimChars v.data
    if s0.isEmpty then 0
    else
      let s := SAD.stripQuotes s0
      match SAD.pyFloatQ s with
      | some q => q
      | none =>
        match SAD.pyFloatQ (SAD.commaToDot s) with
        | some q => q
        | none =>
          match SAD.pyFloatQ (SAD.commaToDot (SAD.dropDots s)) with
          | some q => q
          | none => 0

theorem parse_decimal_stage1 {v : String} {q : ℚ}
    (h : SAD.pyFloatQ (SAD.stripQuotes (SAD.trimChars v.data)) = some q) :
    parse_decimal (some v) = q := by
  have hne : (SAD.trimChars v.data).isEmpty = false := by
    cases hl : SAD.trimChars v.data with
    | nil =>
      rw [hl] at h
      have hn : SAD.pyFloatQ (SAD.stripQuotes ([] : List Char)) = none :=
        SAD.pyFloatQ_eq_none (by decide)
      rw [hn] at h
      exact absurd h (by simp)
    | cons a r => rfl
  simp [parse_decimal, hne, h]

theorem parse_decimal_stage2 {v : String} {q : ℚ}
    (h1 : SAD.pyFloatQ (SAD.stripQuotes (SAD.trimChars v.data)) = none)
    (h2 : SAD.pyFloatQ (SAD.commaToDot (SAD.stripQuotes (SAD.trimChars v.data))) = some q) :
    parse_decimal (some v) = q := by
  by_cases h0 : (SAD.trimChars v.data).isEmpty
  · exfalso
    have hl : SAD.trimChars v.data = [] := by simpa using h0
    rw [hl] at h2
    have hn : SAD.pyFloatQ (SAD.commaToDot (SAD.stripQuotes ([] : List Char))) = none :=
      SAD.pyFloatQ_eq_none (by decide)
    rw [hn] at h2
    exact absurd h2 (by simp)
  · simp [parse_decimal, h0, h1, h2]

theorem parse_decimal_stage3 {v : String} {q : ℚ}
    (h1 : SAD.pyFloatQ (SAD.stripQuotes (SAD.trimChars v.data)) = none)
    (h2 : SAD.pyFloatQ (SAD.commaToDot (SAD.stripQuotes (SAD.trimChars v.data))) = none)
    (h3 : SAD.pyFloatQ (SAD.commaToDot (SAD.dropDots (SAD.stripQuotes (SAD.trimChars v.data)))) = some q) :
    parse_decimal (some v) = q := by
  by_cases h0 : (SAD.trimChars v.data).isEmpty
  · exfalso
    have hl : SAD.trimChars v.data = [] := by simpa using h0
    rw [hl] at h3
    have hn : SAD.pyFloatQ (SAD.commaToDot (SAD.dropDots (SAD.stripQuotes ([] : List Char)))) = none :=
      SAD.pyFloatQ_eq_none (by decide)
    rw [hn] at h3
    exact absurd h3 (by simp)
  · simp [parse_decimal, h0, h1, h2, h3]

theorem parse_decimal_fails {v : String}
    (h1 : SAD.pyFloatQ (SAD.stripQuotes (SAD.trimChars v.data)) = none)
    (h2 : SAD.pyFloatQ (SAD.commaToDot (SAD.stripQuotes (SAD.trimChars v.data))) = none)
    (h3 : SAD.pyFloatQ (SAD.commaToDot (SAD.dropDots (SAD.stripQuotes (SAD.trimChars v.data)))) = none) :
    parse_decimal (some v) = 0 := by
  by_cases h0 : (SAD.trimChars v.data).isEmpty <;> simp [parse_decimal, h0, h1, h2, h3]

theorem parse_decimal_of_empty {v : String} (h : SAD.trimChars v.data = []) :
    parse_decimal (some v) = 0 := by
  simp [parse_decimal, h]

end SAD.compute_salario_medio_setor

namespace SAD

/-- The numeric parser exactly as claim C2 words it: strip surrounding
whitespace and *surrounding* double quotes (the source instead removes
every double-quote character), then try the same three-stage fallback
chain.  This definition follows the claim's words and exists only to be
compared against the source's `parse_decimal`. -/
def stripOuterQuotes (l : List Char) : List Char :=
  ((l.dropWhile (fun c => c = '"')).reverse.dropWhile (fun c => c = '"')).reverse

def parse_decimal_claim (value : Option String) : ℚ :=
  match value with
  | none => 0
  | some v =>
    let s0 := SAD.trimChars v.data
    if s0.isEmpty then 0
    else
      let s := stripOuterQuotes s0
      match SAD.pyFloatQ s with
      | some q => q
      | none =>
        match SAD.pyFloatQ (SAD.commaToDot s) with
        | some q => q
        | none =>
          match SAD.pyFloatQ (SAD.commaToDot (SAD.dropDots s)) with
          | some q => q
          | none => 0

end SAD

open SAD

/-- C10: the two-stage `parse_decimal` of `normalize_salario_demanda.py`
agrees with the three-stage `parse_decimal` of
`compute_salario_medio_setor.py` on every input (and on `None`): the
middle comma-to-dot stage is redundant, because whenever it succeeds the
input has exactly one comma and no dot, so the dot-stripping stage yields
the same string and the same value. -/
theorem C10_parse_decimal_equiv (v : Option String) :
    normalize_salario_demanda.parse_decimal v =
      compute_salario_medio_setor.parse_decimal v := by
  cases v with
  | none => rfl
  | some s =>
    cases h1 : pyFloatQ (stripQuotes (trimChars s.data)) with
    | some q =>
      rw [normalize_salario_demanda.parse_decimal_first_stage h1,
        compute_salario_medio_setor.parse_decimal_stage1 h1]
    | none =>
      cases h2 : pyFloatQ (commaToDot (stripQuotes (trimChars s.data))) with
      | none =>
        cases h3 : pyFloatQ (commaToDot (dropDots (stripQuotes (trimChars s.data)))) with
        | none =>
          rw [normalize_salario_demanda.parse_decimal_both_fail h1 h3,
            compute_salario_medio_setor.parse_decimal_fails h1 h2 h3]
        | some q =>
          rw [normalize_salario_demanda.parse_decimal_second_stage h1 h3,
            compute_salario_medio_setor.parse_decimal_stage3 h1 h2 h3]
      | some q =>
        have hpp : ∃ p, pyFloatParts (trimChars (commaToDot (stripQuotes (trimChars s.data)))) = some p := by
          cases hp : pyFloatParts (trimChars (commaToDot (stripQuotes (trimChars s.data)))) with
          | none =>
            rw [pyFloatQ_eq_none hp] at h2
            exact absurd h2 (by simp)
          | some p => exact ⟨p, rfl⟩
        obtain ⟨p, hp⟩ := hpp
        have hdc := countDot_pyFloatParts hp
        rw [countDot_trimChars, countDot_commaToDot] at hdc
        have hcnz : countComma (stripQuotes (trimChars s.data)) ≠ 0 := by
          intro hz
          rw [commaToDot_of_no_comma hz, h1] at h2
          exact absurd h2 (by simp)
        have hdz : countDot (stripQuotes (trimChars s.data)) = 0 := by omega
        have hdd := dropDots_of_no_dot hdz
        rw [compute_salario_medio_setor.parse_decimal_stage2 h1 h2,
          normalize_salario_demanda.parse_decimal_second_stage h1 (by rw [hdd]; exact h2)]

/-- C2 counterexample: on the input `12"3` — which has no *surrounding*
quotes or whitespace, only an interior double quote — every stage of the
claim's chain fails (so the claim demands 0.0), but the source's
`parse_decimal` removes *every* double-quote character first and returns
123.0. -/
theorem C2_counterexample :
    compute_salario_medio_setor.parse_decimal (some "12\"3") = 123 ∧
    parse_decimal_claim (some "12\"3") = 0 ∧ (123 : ℚ) ≠ 0 := by
  refine ⟨?_, ?_, by norm_num⟩
  · have hp : pyFloatParts (trimChars (stripQuotes (trimChars ("12\"3").data))) =
        some (123, 0) := by decide
    rw [compute_salario_medio_setor.parse_decimal_stage1 (pyFloatQ_eq_some hp)]
    norm_num [partsToQ]
  · have e1 : pyFloatQ (stripOuterQuotes (trimChars ("12\"3").data)) = none :=
      pyFloatQ_eq_none (by decide)
    have e2 : pyFloatQ (commaToDot (stripOuterQuotes (trimChars ("12\"3").data))) = none :=
      pyFloatQ_eq_none (by decide)
    have e3 : pyFloatQ (commaToDot (dropDots (stripOuterQuotes (trimChars ("12\"3").data)))) = none :=
      pyFloatQ_eq_none (by decide)
    simp [parse_decimal_claim, e1, e2, e3]

/-- C2 amended: the numeric parser first strips surrounding whitespace and
removes *every* double-quote character (not only surrounding quotes), then
tries (1) direct parse, (2) comma-to-dot, (3) strip dots then comma-to-dot;
empty input or input failing all three stages yields 0.0 and the parser is
total (never raises); `"1234.56"→1234.56`, `"1234,56"→1234.56`,
`"1.234,56"→1234.56`, `""→0.0`, `"abc"→0.0`. -/
theorem C2_parse_decimal_amended :
    (∀ v : String, SAD.trimChars v.data = [] →
      compute_salario_medio_setor.parse_decimal (some v) = 0) ∧
    (∀ (v : String) (q : ℚ),
      pyFloatQ (stripQuotes (trimChars v.data)) = some q →
      compute_salario_medio_setor.parse_decimal (some v) = q) ∧
    (∀ (v : String) (q : ℚ),
      pyFloatQ (stripQuotes (trimChars v.data)) = none →
      pyFloatQ (commaToDot (stripQuotes (trimChars v.data))) = some q →
      compute_salario_medio_setor.parse_decimal (some v) = q) ∧
    (∀ (v : String) (q : ℚ),
      pyFloatQ (stripQuotes (trimChars v.data)) = none →
      pyFloatQ (commaToDot (stripQuotes (trimChars v.data))) = none →
      pyFloatQ (commaToDot (dropDots (stripQuotes (trimChars v.data)))) = some q →
      compute_salario_medio_setor.parse_decimal (some v) = q) ∧
    (∀ v : String,
      pyFloatQ (stripQuotes (trimChars v.data)) = none →
      pyFloatQ (commaToDot (stripQuotes (trimChars v.data))) = none →
      pyFloatQ (commaToDot (dropDots (stripQuotes (trimChars v.data)))) = none →
      compute_salario_medio_setor.parse_decimal (some v) = 0) ∧
    compute_salario_medio_setor.parse_decimal (some "1234.56") = 1234.56 ∧
    compute_salario_medio_setor.parse_decimal (some "1234,56") = 1234.56 ∧
    compute_salario_medio_setor.parse_decimal (some "1.234,56") = 1234.56 ∧
    compute_salario_medio_setor.parse_decimal (some "") = 0 ∧
    compute_salario_medio_setor.parse_decimal (some "abc") = 0 ∧
    compute_salario_medio_setor.parse_decimal none = 0 := by
  refine ⟨fun v h => compute_salario_medio_setor.parse_decimal_of_empty h,
    fun v q h => compute_salario_medio_setor.parse_decimal_stage1 h,
    fun v q h1 h2 => compute_salario_medio_setor.parse_decimal_stage2 h1 h2,
    fun v q h1 h2 h3 => compute_salario_medio_setor.parse_decimal_stage3 h1 h2 h3,
    fun v h1 h2 h3 => compute_salario_medio_setor.parse_decimal_fails h1 h2 h3,
    ?_, ?_, ?_, ?_, ?_, rfl⟩
  · have hp : pyFloatParts (trimChars (stripQuotes (trimChars ("1234.56").data))) =
        some (123456, -2) := by decide
    rw [compute_salario_medio_setor.parse_decimal_stage1 (pyFloatQ_eq_some hp)]
    norm_num [partsToQ]
  · have h1 : pyFloatQ (stripQuotes (trimChars ("1234,56").data)) = none :=
      pyFloatQ_eq_none (by decide)
    have hp : pyFloatParts (trimChars (commaToDot (stripQuotes (trimChars ("1234,56").data)))) =
        some (123456, -2) := by decide
    rw [compute_salario_medio_setor.parse_decimal_stage2 h1 (pyFloatQ_eq_some hp)]
    norm_num [partsToQ]
  · have h1 : pyFloatQ (stripQuotes (trimChars ("1.234,56").data)) = none :=
      pyFloatQ_eq_none (by decide)
    have h2 : pyFloatQ (commaToDot (stripQuotes (trimChars ("1.234,56").data))) = none :=
      pyFloatQ_eq_none (by decide)
    have hp : pyFloatParts (trimChars (commaToDot (dropDots (stripQuotes (trimChars ("1.234,56").data))))) =
        some (123456, -2) := by decide
    rw [compute_salario_medio_setor.parse_decimal_stage3 h1 h2 (pyFloatQ_eq_some hp)]
    norm_num [partsToQ]
  · exact compute_salario_medio_setor.parse_decimal_of_empty (by decide)
  · exact compute_salario_medio_setor.parse_decimal_fails
      (pyFloatQ_eq_none (by decide)) (pyFloatQ_eq_none (by decide))
      (pyFloatQ_eq_none (by decide))

/-- C2 witness: the empty-input clause of the amended theorem instantiated
at the empty string. -/
theorem C2_witness : compute_salario_medio_setor.parse_decimal (some "") = 0 :=
  C2_parse_decimal_amended.1 "" (by decide)

namespace SAD.compute_empregabilidade

/-- `calc_empregabilidade` from `compute_empregabilidade.py` (lines
144-160): guard `taxa >= 100`, guard `100 - taxa == 0`, then
`desempregados = empregados * (taxa / (100 - taxa))`,
`total = empregados + desempregados`, returning 0 for `total == 0` and
`empregados / total` otherwise. -/
def calc_empregabilidade (empregados taxa : ℚ) : ℚ :=
  if 100 ≤ taxa then 0
  else if 100 - taxa = 0 then 0
  else
    let desempregados := empregados * (taxa / (100 - taxa))
    let total := empregados + desempregados
    if total = 0 then 0 else empregados / total

end SAD.compute_empregabilidade

/-- C1: `calc_empregabilidade E r` returns 0 when `r ≥ 100`; otherwise,
with `desempregados = E * (r / (100 - r))` and `total = E + desempregados`,
it returns 0 when `total = 0` and `E / total` otherwise (the extra
`100 - r = 0` guard in the source is unreachable for `r < 100`); in
particular `E=100, r=50` gives 0.5, `r=100` gives 0.0, `r=0` gives 1.0. -/
theorem C1_calc_empregabilidade (E r : ℚ) :
    (100 ≤ r → compute_empregabilidade.calc_empregabilidade E r = 0) ∧
    (r < 100 →
      compute_empregabilidade.calc_empregabilidade E r =
        (if E + E * (r / (100 - r)) = 0 then 0
         else E / (E + E * (r / (100 - r))))) ∧
    compute_empregabilidade.calc_empregabilidade 100 50 = 1 / 2 ∧
    compute_empregabilidade.calc_empregabilidade 100 100 = 0 ∧
    compute_empregabilidade.calc_empregabilidade 100 0 = 1 := by
  refine ⟨fun h => ?_, fun h => ?_,
    by norm_num [compute_empregabilidade.calc_empregabilidade],
    by norm_num [compute_empregabilidade.calc_empregabilidade],
    by norm_num [compute_empregabilidade.calc_empregabilidade]⟩
  · simp [compute_empregabilidade.calc_empregabilidade, h]
  · have hlt : ¬ (100 ≤ r) := not_le.mpr h
    have hne : 100 - r ≠ 0 := ne_of_gt (by linarith)
    simp [compute_empregabilidade.calc_empregabilidade, hlt, hne]

/-- C1 witness: the `r ≥ 100` clause instantiated at `E = 100`, `r = 100`. -/
theorem C1_witness : compute_empregabilidade.calc_empregabilidade 100 100 = 0 :=
  (C1_calc_empregabilidade 100 100).1 (by norm_num)

namespace SAD.normalize_salario_demanda

/-- `normalize` from `normalize_salario_demanda.py` (lines 55-58). -/
def normalize (value minv maxv : ℚ) : ℚ :=
  if maxv = minv then 0 else (value - minv) / (maxv - minv)

end SAD.normalize_salario_demanda

/-- C7 counterexample: for a group with values `[2,4,8]` (min 2, max 8),
the middle value normalizes to `(4-2)/(8-2) = 1/3 = 0.3333…`, whose
decimal expansion does not begin with `0.2857` as the claim states. -/
theorem C7_counterexample :
    normalize_salario_demanda.normalize 4 2 8 = 1 / 3 ∧
    ¬ ((2857 / 10000 : ℚ) ≤ normalize_salario_demanda.normalize 4 2 8 ∧
       normalize_salario_demanda.normalize 4 2 8 < 2858 / 10000) := by
  constructor
  · norm_num [normalize_salario_demanda.normalize]
  · rw [normalize_salario_demanda.normalize]
    norm_num

/-- C7 amended: for a group with target-column values `[2,4,8]` (min 2,
max 8) the normalizer emits `0.0, 0.3333…, 1.0` — the middle value is
`1/3`, not `0.2857…`; and for every group where min = max, every value
normalizes to 0.0. -/
theorem C7_normalize_amended :
    normalize_salario_demanda.normalize 2 2 8 = 0 ∧
    normalize_salario_demanda.normalize 4 2 8 = 1 / 3 ∧
    normalize_salario_demanda.normalize 8 2 8 = 1 ∧
    ∀ v m : ℚ, normalize_salario_demanda.normalize v m m = 0 := by
  refine ⟨by norm_num [normalize_salario_demanda.normalize],
    by norm_num [normalize_salario_demanda.normalize],
    by norm_num [normalize_salario_demanda.normalize],
    fun v m => by simp [normalize_salario_demanda.normalize]⟩

namespace SAD

/-- First-match association-list lookup, modelling lookup in a Python dict
whose entries carry distinct keys (inserts that overwrite are modelled by
`dictInsert` below, which keeps keys distinct). -/
def assocFind {α β : Type} [DecidableEq α] (m : List (α × β)) (k : α) : Option β :=
  (m.find? (fun p => p.1 = k)).map Prod.snd

/-- Python dict assignment `m[k] = v`: overwrite the existing binding or
append a new one. -/
def dictInsert {α β : Type} [DecidableEq α] (m : List (α × β)) (k : α) (v : β) :
    List (α × β) :=
  if (assocFind m k).isSome then m.map (fun p => if p.1 = k then (k, v) else p)
  else m ++ [(k, v)]

end SAD

namespace SAD.merge_rais_cnaes

/-- `normalize_header` from `merge_rais_cnaes.py` (lines 59-61):
`h.strip().lower()`, with `lower()` modelled as per-character ASCII case
folding. -/
def normalize_header (h : String) : String :=
  String.mk ((SAD.trimChars h.data).map Char.toLower)

/-- The dict comprehension `{normalize_header(fn): fn for fn in fieldnames}`:
the *last* field name with a given normalized form wins. -/
def lookupNormLast (fieldnames : List String) (key : String) : Option String :=
  (fieldnames.filter (fun fn => normalize_header fn = key)).getLast?

/-- `choose_column` from `merge_rais_cnaes.py` (lines 64-73): first
candidate whose normalized form is a key of the normalized-header map;
Python's `if real:` treats an empty real name as not found. -/
def choose_column (fieldnames candidates : List String) : Option String :=
  candidates.findSome? fun cand =>
    match lookupNormLast fieldnames (normalize_header cand) with
    | some real => if real = "" then none else some real
    | none => none

/-- `load_cnaes_unicos` (lines 79-121), applied to the key/value columns
already extracted from each side-table row: skip empty keys, strip both
fields, last occurrence of a key wins. -/
def load_cnaes_unicos (rows : List (String × String)) : List (String × String) :=
  rows.foldl
    (fun m r =>
      let key := SAD.pystrip r.1
      if key = "" then m else SAD.dictInsert m key (SAD.pystrip r.2))
    []

/-- The logical output fields of `stream_merge` (keys of `col_candidates`,
lines 154-178). -/
inductive ColKey
  | ano
  | id_cnae
  | cnae
  | massa_salarial
  | salario_medio
  | num_empregos
  | ganho_oportunidade
deriving DecidableEq

/-- The candidate header names for each logical field (lines 154-178; the
source's duplicated `"numero_de_empregos"` entry is kept). -/
def col_candidates : ColKey → List String
  | .ano => ["Ano", "ano", "ANo", "ANO"]
  | .id_cnae => ["ID CNAE", "id_cnae", "id cnae", "idcnae"]
  | .cnae => ["CNAE", "cnae"]
  | .massa_salarial => ["Massa Salarial", "massa_salarial", "massa salarial"]
  | .salario_medio => ["Salário Médio", "Salario Medio", "salario medio", "salario_medio"]
  | .num_empregos =>
    ["Número de empregos", "Numero de empregos", "numero de empregos",
     "numero_de_empregos", "numero_de_empregos"]
  | .ganho_oportunidade =>
    ["Ganho de Oportunidade", "Ganho de oportunidade", "ganho oportunidade",
     "ganho_oportunidade"]

/-- The `chosen` map of `stream_merge` (lines 181-193): unresolved columns
are recorded as `none` and the run continues. -/
def chosen (fieldnames : List String) (key : ColKey) : Option String :=
  choose_column fieldnames (col_candidates key)

/-- `get_col` inside the streaming loop (lines 219-223). -/
def get_col (fieldnames : List String) (row : List (String × String)) (key : ColKey) :
    String :=
  match chosen fieldnames key with
  | none => ""
  | some colname => SAD.pystrip ((SAD.assocFind row colname).getD "")

/-- One output row of `stream_merge`, fields in the fixed output order
(lines 196-205). -/
structure OutRow where
  ano : String
  idCnae : String
  cnae : String
  massaSalarial : String
  salarioMedio : String
  numEmpregos : String
  ganhoOportunidade : String
  setor : String
deriving DecidableEq

/-- The per-row transformation of `stream_merge` (lines 215-239). -/
def outRowOf (fieldnames : List String) (m : List (String × String))
    (row : List (String × String)) : OutRow :=
  let id_cnae := get_col fieldnames row ColKey.id_cnae
  { ano := get_col fieldnames row ColKey.ano
    idCnae := id_cnae
    cnae := get_col fieldnames row ColKey.cnae
    massaSalarial := get_col fieldnames row ColKey.massa_salarial
    salarioMedio := get_col fieldnames row ColKey.salario_medio
    numEmpregos := get_col fieldnames row ColKey.num_empregos
    ganhoOportunidade := get_col fieldnames row ColKey.ganho_oportunidade
    setor := if id_cnae = "" then "" else (SAD.assocFind m id_cnae).getD "" }

/-- `stream_merge` (lines 127-247): fatal only when the primary file has no
recognizable header; otherwise one output row per input row. -/
def stream_merge (header : Option (List String)) (rows : List (List (String × String)))
    (m : List (String × String)) : Except String (List OutRow) :=
  match header with
  | none => Except.error "no header"
  | some fieldnames => Except.ok (rows.map (outRowOf fieldnames m))

theorem load_cnaes_unicos_no_empty_key (rows : List (String × String)) :
    ∀ p ∈ load_cnaes_unicos rows, p.1 ≠ "" := by
  have step : ∀ (m : List (String × String)) (r : String × String),
      (∀ p ∈ m, p.1 ≠ "") →
      ∀ p ∈ (let key := SAD.pystrip r.1;
             if key = "" then m else SAD.dictInsert m key (SAD.pystrip r.2)),
        p.1 ≠ "" := by
    intro m r hm p hp
    by_cases hk : SAD.pystrip r.1 = ""
    · simp only [hk, if_pos rfl] at hp
      exact hm p hp
    · simp only [if_neg hk] at hp
      unfold SAD.dictInsert at hp
      split at hp
      · rcases List.mem_map.mp hp with ⟨q, hq, hqe⟩
        by_cases hq1 : q.1 = SAD.pystrip r.1
        · simp only [hq1, if_pos rfl] at hqe
          rw [← hqe]
          exact hk
        · simp only [if_neg hq1] at hqe
          rw [← hqe]
          exact hm q hq
      · rcases List.mem_append.mp hp with hq | hq
        · exact hm p hq
        · rw [List.mem_singleton.mp hq]
          exact hk
  suffices hgen : ∀ (rows : List (String × String)) (m : List (String × String)),
      (∀ p ∈ m, p.1 ≠ "") →
      ∀ p ∈ rows.foldl
        (fun m r =>
          let key := SAD.pystrip r.1
          if key = "" then m else SAD.dictInsert m key (SAD.pystrip r.2)) m,
        p.1 ≠ "" by
    exact hgen rows [] (by simp)
  intro rows
  induction rows with
  | nil => intro m hm; simpa using hm
  | cons r rest ih =>
    intro m hm
    exact ih _ (step m r hm)

theorem assocFind_eq_none_of_no_key {m : List (String × String)}
    (h : ∀ p ∈ m, p.1 ≠ "") : SAD.assocFind m "" = none := by
  unfold SAD.assocFind
  rw [List.find?_eq_none.mpr]
  · rfl
  · intro p hp
    simpa using h p hp

end SAD.merge_rais_cnaes

open SAD.merge_rais_cnaes

/-- C3: for a side map without an empty-string key — `load_cnaes_unicos`
never produces one, as the final clause shows — `stream_merge` emits
exactly one output row per input row, and each output row's SETOR field is
the side map's value for the row's join key when present, and the empty
string when absent. -/
theorem C3_stream_merge_join (fieldnames : List String)
    (rows : List (List (String × String))) (m : List (String × String))
    (hm : SAD.assocFind m "" = none) :
    stream_merge (some fieldnames) rows m =
      Except.ok (rows.map (outRowOf fieldnames m)) ∧
    (rows.map (outRowOf fieldnames m)).length = rows.length ∧
    (∀ row ∈ rows,
      (outRowOf fieldnames m row).setor =
        match SAD.assocFind m (get_col fieldnames row ColKey.id_cnae) with
        | some v => v
        | none => "") ∧
    ∀ sideRows : List (String × String),
      SAD.assocFind (load_cnaes_unicos sideRows) "" = none := by
  refine ⟨rfl, List.length_map _ _, fun row hrow => ?_,
    fun sideRows =>
      assocFind_eq_none_of_no_key (load_cnaes_unicos_no_empty_key sideRows)⟩
  by_cases hid : get_col fieldnames row ColKey.id_cnae = ""
  · simp [outRowOf, hid, hm]
  · simp only [outRowOf, if_neg hid]
    cases h : SAD.assocFind m (get_col fieldnames row ColKey.id_cnae) <;> simp [h]

/-- C3 witness: a one-row primary table joined against the side map
`{"123" ↦ "IND"}` emits SETOR `"IND"`. -/
theorem C3_witness :
    (outRowOf ["Ano", "ID CNAE"] [("123", "IND")]
      [("Ano", "2019"), ("ID CNAE", "123")]).setor = "IND" := by
  have h := (C3_stream_merge_join ["Ano", "ID CNAE"]
    [[("Ano", "2019"), ("ID CNAE", "123")]] [("123", "IND")] (by decide)).2.2.1
    [("Ano", "2019"), ("ID CNAE", "123")] (by decide)
  rw [h]
  decide

/-- C4 counterexample: with primary header `["Ano"]` the join-key column
`ID CNAE` is unresolvable, yet `stream_merge` does *not* abort — it
returns an `ok` result (the source logs the error, stores `None` for the
column and continues), emitting the row with an empty SETOR. -/
theorem C4_counterexample :
    choose_column ["Ano"] (col_candidates ColKey.id_cnae) = none ∧
    (stream_merge (some ["Ano"]) [[("Ano", "2019")]] [("123", "IND")]).isOk = true ∧
    (outRowOf ["Ano"] [("123", "IND")] [("Ano", "2019")]).setor = "" := by decide

/-- C4 amended: an unresolvable column in the primary header — the join
key included — never aborts the run (only a missing header is fatal):
`stream_merge` still returns `ok`; when the join key is unresolved, every
output row carries an empty `ID CNAE` and an empty SETOR; an unresolvable
non-key column (e.g. CNAE) likewise yields the empty string in every
output row. -/
theorem C4_stream_merge_amended (fieldnames : List String)
    (rows : List (List (String × String))) (m : List (String × String)) :
    (stream_merge (some fieldnames) rows m).isOk = true ∧
    (chosen fieldnames ColKey.id_cnae = none →
      ∀ row ∈ rows, (outRowOf fieldnames m row).idCnae = "" ∧
        (outRowOf fieldnames m row).setor = "") ∧
    (chosen fieldnames ColKey.cnae = none →
      ∀ row ∈ rows, (outRowOf fieldnames m row).cnae = "") := by
  refine ⟨rfl, fun hid row hrow => ?_, fun hc row hrow => ?_⟩
  · have hkey : get_col fieldnames row ColKey.id_cnae = "" := by
      simp [get_col, hid]
    exact ⟨by simp [outRowOf, hkey], by simp [outRowOf, hkey]⟩
  · simp [outRowOf, get_col, hc]

/-- C4 witness: the amended theorem instantiated at a header lacking both
`ID CNAE` and `CNAE`. -/
theorem C4_witness :
    (outRowOf ["Ano"] [("123", "IND")] [("Ano", "2019")]).idCnae = "" ∧
    (outRowOf ["Ano"] [("123", "IND")] [("Ano", "2019")]).setor = "" := by
  exact (C4_stream_merge_amended ["Ano"] [[("Ano", "2019")]] [("123", "IND")]).2.1
    (by decide) [("Ano", "2019")] (by decide)

namespace SAD.compute_salario_medio_setor

/-- One primary-table row as seen by `aggregate_median` after column
resolution: the raw `Ano`, `SETOR` and `Salário Médio` strings. -/
structure RowS where
  ano : String
  setor : String
  salario : String
deriving DecidableEq

/-- `bins[key].append(v)` on a `defaultdict(list)`: append to the existing
bucket or create a one-element bucket at the end. -/
def binsAppend (bins : List ((String × String) × List ℚ)) (k : String × String)
    (v : ℚ) : List ((String × String) × List ℚ) :=
  match SAD.assocFind bins k with
  | some _ => bins.map (fun p => if p.1 = k then (p.1, p.2 ++ [v]) else p)
  | none => bins ++ [(k, [v])]

/-- One iteration of the streaming loop of `aggregate_median`
(`compute_salario_medio_setor.py` lines 119-133): skip rows with empty
year or sector, parse the salary, skip zero salaries unless
`include_zeros`, else append to the bucket. -/
def collectStep (include_zeros : Bool)
    (bins : List ((String × String) × List ℚ)) (r : RowS) :
    List ((String × String) × List ℚ) :=
  let ano := SAD.pystrip r.ano
  let setor := SAD.pystrip r.setor
  if ano = "" ∨ setor = "" then bins
  else
    let salario := parse_decimal (some r.salario)
    if !include_zeros && salario = 0 then bins
    else binsAppend bins (ano, setor) salario

/-- `statistics.median` (and the source's identical manual fallback,
lines 146-156), with the source's `if not values` guard mapped to the
empty case: sort ascending, take the middle element for odd length, the
mean of the two middle elements for even length, 0.0 when empty. -/
def median (values : List ℚ) : ℚ :=
  if values = [] then 0
  else
    let vals := values.insertionSort (· ≤ ·)
    let n := vals.length
    if n % 2 = 1 then vals.getD (n / 2) 0
    else (vals.getD (n / 2 - 1) 0 + vals.getD (n / 2) 0) / 2

/-- `aggregate_median` (lines 87-159) applied to the already-resolved
rows: stream the rows into buckets, then map `median` over each bucket. -/
def aggregate_median (rows : List RowS) (include_zeros : Bool) :
    List ((String × String) × ℚ) :=
  (rows.foldl (collectStep include_zeros) []).map (fun p => (p.1, median p.2))

/-- The values the spec says are collected for a given group key: parsed
salaries of rows with non-empty year and sector matching the key, with
zero values excluded unless `include_zeros`. -/
def collectedSpec (rows : List RowS) (include_zeros : Bool)
    (key : String × String) : List ℚ :=
  rows.filterMap fun r =>
    if SAD.pystrip r.ano ≠ "" ∧ SAD.pystrip r.setor ≠ "" ∧
        (SAD.pystrip r.ano, SAD.pystrip r.setor) = key then
      let v := parse_decimal (some r.salario)
      if include_zeros ∨ v ≠ 0 then some v else none
    else none

theorem assocFind_map_val {α β γ : Type} [DecidableEq α] (f : β → γ)
    (m : List (α × β)) (k : α) :
    SAD.assocFind (m.map (fun p => (p.1, f p.2))) k =
      (SAD.assocFind m k).map f := by
  unfold SAD.assocFind
  rw [List.find?_map]
  have hcomp : ((fun q : α × γ => decide (q.1 = k)) ∘ (fun p : α × β => (p.1, f p.2))) =
      (fun q : α × β => decide (q.1 = k)) := by
    funext q
    rfl
  rw [hcomp]
  cases hf : m.find? (fun q => decide (q.1 = k)) <;> simp

theorem assocFind_binsAppend_self (bins : List ((String × String) × List ℚ))
    (k : String × String) (v : ℚ) :
    SAD.assocFind (binsAppend bins k v) k =
      some (((SAD.assocFind bins k).getD []) ++ [v]) := by
  unfold binsAppend
  cases h : SAD.assocFind bins k with
  | none =>
    have hfind : bins.find? (fun p => p.1 = k) = none := by
      unfold SAD.assocFind at h
      exact Option.map_eq_none'.mp h
    simp only [SAD.assocFind, List.find?_append, hfind]
    simp
  | some l =>
    have hfind : ∃ p, bins.find? (fun p => p.1 = k) = some p ∧ p.2 = l := by
      unfold SAD.assocFind at h
      rcases Option.map_eq_some'.mp h with ⟨p, hp, hpe⟩
      exact ⟨p, hp, hpe⟩
    rcases hfind with ⟨p, hp, hpe⟩
    simp only [SAD.assocFind, Option.map_some]
    rw [List.find?_map]
    have hcomp : ((fun q : (String × String) × List ℚ => decide (q.1 = k)) ∘
        (fun q : (String × String) × List ℚ => if q.1 = k then (q.1, q.2 ++ [v]) else q)) =
        (fun q : (String × String) × List ℚ => decide (q.1 = k)) := by
      funext q
      by_cases hq : q.1 = k <;> simp [hq]
    rw [hcomp, hp]
    have hpk : p.1 = k := by
      have := List.find?_some hp
      simpa using this
    simp [hpk, h, hpe]

theorem assocFind_binsAppend_other (bins : List ((String × String) × List ℚ))
    (k key : String × String) (v : ℚ) (hne : key ≠ k) :
    SAD.assocFind (binsAppend bins k v) key = SAD.assocFind bins key := by
  unfold binsAppend
  cases h : SAD.assocFind bins k with
  | none =>
    simp only [SAD.assocFind, List.find?_append]
    have : [(k, [v])].find? (fun p => p.1 = key) = none := by
      simp [Ne.symm hne]
    rw [this]
    simp
  | some l =>
    simp only [SAD.assocFind]
    rw [List.find?_map]
    have hcomp : ((fun q : (String × String) × List ℚ => decide (q.1 = key)) ∘
        (fun q : (String × String) × List ℚ => if q.1 = k then (q.1, q.2 ++ [v]) else q)) =
        (fun q : (String × String) × List ℚ => decide (q.1 = key)) := by
      funext q
      by_cases hq : q.1 = k <;> simp [hq]
    rw [hcomp]
    cases hf : bins.find? (fun p => p.1 = key) with
    | none => simp
    | some p =>
      have hpk : p.1 = key := by
        have := List.find?_some hf
        simpa using this
      have : ¬ p.1 = k := by rw [hpk]; exact hne
      simp [this]

theorem binsFold_lookup (flag : Bool) (rows : List RowS) :
    ∀ (bins : List ((String × String) × List ℚ)) (key : String × String),
      SAD.assocFind (rows.foldl (collectStep flag) bins) key =
        (match SAD.assocFind bins key, collectedSpec rows flag key with
         | none, [] => none
         | none, c => some c
         | some l, c => some (l ++ c)) := by
  induction rows with
  | nil =>
    intro bins key
    simp only [List.foldl_nil, collectedSpec, List.filterMap_nil]
    cases h : SAD.assocFind bins key <;> simp [h]
  | cons r rest ih =>
    intro bins key
    simp only [List.foldl_cons]
    rw [ih]
    by_cases hskip : SAD.pystrip r.ano = "" ∨ SAD.pystrip r.setor = ""
    · have hstep : collectStep flag bins r = bins := by
        simp [collectStep, hskip]
      have hcols : collectedSpec (r :: rest) flag key = collectedSpec rest flag key := by
        simp only [collectedSpec, List.filterMap_cons]
        rw [if_neg]
        rintro ⟨ha, hs, _⟩
        rcases hskip with h | h
        · exact ha h
        · exact hs h
      rw [hstep, hcols]
    · push_neg at hskip
      set v := parse_decimal (some r.salario) with hv
      by_cases hz : !flag && v = 0
      · have hstep : collectStep flag bins r = bins := by
          simp only [collectStep]
          rw [if_neg (by rintro (h | h) <;> [exact hskip.1 h; exact hskip.2 h])]
          simp only [← hv]
          rw [if_pos hz]
        have hcols : collectedSpec (r :: rest) flag key = collectedSpec rest flag key := by
          simp only [collectedSpec, List.filterMap_cons]
          have hz' := (Bool.and_eq_true _ _).mp hz
          have hflag : flag = false := by
            cases flag
            · rfl
            · exact absurd hz'.1 (by decide)
          have hv0 : v = 0 := of_decide_eq_true hz'.2
          by_cases hkey : SAD.pystrip r.ano ≠ "" ∧ SAD.pystrip r.setor ≠ "" ∧
              (SAD.pystrip r.ano, SAD.pystrip r.setor) = key
          · rw [if_pos hkey]
            simp only [← hv, hflag, hv0]
            simp
          · rw [if_neg hkey]
        rw [hstep, hcols]
      · have hstep : collectStep flag bins r =
            binsAppend bins (SAD.pystrip r.ano, SAD.pystrip r.setor) v := by
          simp only [collectStep]
          rw [if_neg (by rintro (h | h) <;> [exact hskip.1 h; exact hskip.2 h])]
          simp only [← hv]
          rw [if_neg hz]
        rw [hstep]
        by_cases hkey : (SAD.pystrip r.ano, SAD.pystrip r.setor) = key
        · have hcols : collectedSpec (r :: rest) flag key =
              v :: collectedSpec rest flag key := by
            simp only [collectedSpec, List.filterMap_cons]
            rw [if_pos ⟨hskip.1, hskip.2, hkey⟩]
            have hor : flag = true ∨ v ≠ 0 := by
              by_cases hf : flag = true
              · exact Or.inl hf
              · right
                intro hv0
                have hff : flag = false := by
                  cases flag
                  · rfl
                  · exact absurd rfl hf
                exact hz (by simp [hff, hv0])
            rw [if_pos (by simpa using hor)]
          rw [hcols, hkey, assocFind_binsAppend_self]
          cases hb : SAD.assocFind bins key with
          | none => simp
          | some l =>
            simp only [Option.getD_some]
            cases hc : collectedSpec rest flag key <;> simp
        · have hcols : collectedSpec (r :: rest) flag key = collectedSpec rest flag key := by
            simp only [collectedSpec, List.filterMap_cons]
            rw [if_neg (by rintro ⟨_, _, hk⟩; exact hkey hk)]
          rw [assocFind_binsAppend_other _ _ _ _ (fun hEq => hkey hEq.symm), hcols]

end SAD.compute_salario_medio_setor

theorem binsFold_lookup_nil (flag : Bool)
    (rows : List SAD.compute_salario_medio_setor.RowS) (key : String × String) :
    SAD.assocFind (rows.foldl (SAD.compute_salario_medio_setor.collectStep flag) []) key =
      (if SAD.compute_salario_medio_setor.collectedSpec rows flag key = [] then none
       else some (SAD.compute_salario_medio_setor.collectedSpec rows flag key)) := by
  rw [SAD.compute_salario_medio_setor.binsFold_lookup flag rows [] key]
  have hbase : SAD.assocFind ([] : List ((String × String) × List ℚ)) key = none := rfl
  rw [hbase]
  cases hc : SAD.compute_salario_medio_setor.collectedSpec rows flag key <;> simp


open SAD.compute_salario_medio_setor in
/-- C5: in median mode, the output for every group key is the exact median
of the collected values — middle element of any ascending-sorted
arrangement for odd count, average of the two middle elements for even
count — where collected values are the parsed salaries of rows with
non-empty year and sector, zero values excluded unless the
`include_zeros` flag is set; a key with no collected values is absent
(its would-be empty bucket maps to 0.0 by `median`); `[10,20,30] ↦ 20`
and `[10,20] ↦ 15`. -/
theorem C5_aggregate_median (rows : List RowS) (flag : Bool)
    (key : String × String) (s : List ℚ)
    (hperm : s.Perm (collectedSpec rows flag key))
    (hsort : s.Sorted (· ≤ ·)) :
    SAD.assocFind (aggregate_median rows flag) key =
      (if s.isEmpty then none
       else some (if s.length % 2 = 1 then s.getD (s.length / 2) 0
                  else (s.getD (s.length / 2 - 1) 0 + s.getD (s.length / 2) 0) / 2)) ∧
    median [10, 20, 30] = 20 ∧ median [10, 20] = 15 ∧ median [] = 0 := by
  refine ⟨?_, by decide, ?_, rfl⟩
  · unfold aggregate_median
    rw [assocFind_map_val, binsFold_lookup_nil]
    by_cases hc : collectedSpec rows flag key = []
    · rw [if_pos hc]
      have hs : s = [] := (hc ▸ hperm).eq_nil
      simp [hs]
    · rw [if_neg hc]
      have hsne : ¬ s = [] := by
        intro hnil
        exact hc ((hnil ▸ hperm).symm.eq_nil)
      have hvals : (collectedSpec rows flag key).insertionSort (· ≤ ·) = s :=
        List.eq_of_perm_of_sorted ((List.perm_insertionSort _ _).trans hperm.symm)
          (List.sorted_insertionSort _ _) hsort
      rw [Option.map_some', if_neg (by simpa using hsne)]
      unfold median
      rw [if_neg hc, hvals]
  · unfold median
    rw [if_neg (List.cons_ne_nil _ _)]
    norm_num [List.insertionSort, List.orderedInsert, List.getD]

/-- C5 witness: no rows collect nothing, so the key is absent. -/
theorem C5_witness :
    SAD.assocFind (SAD.compute_salario_medio_setor.aggregate_median [] false)
      ("2019", "A") = none := by
  have h := C5_aggregate_median [] false ("2019", "A") []
    (List.Perm.refl _) List.sorted_nil
  simpa using h.1

namespace SAD

theorem assocFind_dictInsert_self {α β : Type} [DecidableEq α]
    (m : List (α × β)) (k : α) (v : β) :
    assocFind (dictInsert m k v) k = some v := by
  unfold dictInsert
  by_cases h : (assocFind m k).isSome
  · rw [if_pos h]
    unfold assocFind at h ⊢
    rw [List.find?_map]
    have hcomp : ((fun q : α × β => decide (q.1 = k)) ∘
        (fun p : α × β => if p.1 = k then (k, v) else p)) =
        (fun p : α × β => decide (p.1 = k)) := by
      funext p
      by_cases hp : p.1 = k <;> simp [hp]
    rw [hcomp]
    rcases hf : m.find? (fun p => decide (p.1 = k)) with _ | p
    · rw [hf] at h
      exact absurd h (by simp)
    · have hpk : p.1 = k := by simpa using List.find?_some hf
      rw [hf]
      simp [hpk]
  · rw [if_neg h]
    have hnone : m.find? (fun p => decide (p.1 = k)) = none := by
      rcases hf : m.find? (fun p => decide (p.1 = k)) with _ | p
      · exact hf
      · unfold assocFind at h
        rw [hf] at h
        exact absurd (by simp : (Option.map Prod.snd (some p)).isSome = true) h
    unfold assocFind
    rw [List.find?_append, hnone]
    simp

theorem assocFind_dictInsert_other {α β : Type} [DecidableEq α]
    (m : List (α × β)) (k key : α) (v : β) (hne : key ≠ k) :
    assocFind (dictInsert m k v) key = assocFind m key := by
  unfold dictInsert
  by_cases h : (assocFind m k).isSome
  · rw [if_pos h]
    unfold assocFind
    rw [List.find?_map]
    have hcomp : ((fun q : α × β => decide (q.1 = key)) ∘
        (fun p : α × β => if p.1 = k then (k, v) else p)) =
        (fun p : α × β => decide (p.1 = key)) := by
      funext p
      by_cases hp : p.1 = k
      · have h1 : (k = key) = False := by simp [Ne.symm hne]
        have h2 : (p.1 = key) = False := by
          rw [hp]
          exact h1
        simp [hp, h1, h2]
      · simp [hp]
    rw [hcomp]
    cases hf : m.find? (fun p => decide (p.1 = key)) with
    | none => simp
    | some p =>
      have hpk : p.1 = key := by simpa using List.find?_some hf
      have hnk : ¬ p.1 = k := by
        rw [hpk]
        exact hne
      simp [hnk]
  · rw [if_neg h]
    unfold assocFind
    rw [List.find?_append]
    have hsing : [(k, v)].find? (fun p => decide (p.1 = key)) = none := by
      simp [Ne.symm hne]
    rw [hsing]
    simp

end SAD

namespace SAD.normalize_salario_demanda

/-- A row of the normalizer's input as the two passes of `process` see it:
the raw optional cell values for `ano`, `setor`, `demanda` and the salary
column. -/
structure RowN where
  ano : Option String
  setor : Option String
  demanda : Option String
  salario : Option String
deriving DecidableEq

/-- `(row.get(setor_field) or "").strip()` (lines 102, 149). -/
def setorOf (r : RowN) : String := SAD.pystrip (r.setor.getD "")

/-- `(row.get(ano_field) or "").strip()`: the row's year, which `process`
resolves (line 88) but never uses in the min/max key. -/
def anoOf (r : RowN) : String := SAD.pystrip (r.ano.getD "")

/-- `parse_decimal(row.get(demanda_col))` (lines 105, 150). -/
def demVal (r : RowN) : ℚ := parse_decimal r.demanda

/-- `parse_decimal(row.get(salario_col))` (lines 106, 151). -/
def salVal (r : RowN) : ℚ := parse_decimal r.salario

/-- One pass-1 update of the running minimum (lines 108-114 for demand,
117-122 for salary): skip rows with an empty sector; store the value if no
previous minimum exists or the value is strictly smaller. -/
def minStep (f : RowN → ℚ) (m : List (String × ℚ)) (r : RowN) : List (String × ℚ) :=
  let setor := setorOf r
  if setor = "" then m
  else
    match SAD.assocFind m setor with
    | none => SAD.dictInsert m setor (f r)
    | some prev => if f r < prev then SAD.dictInsert m setor (f r) else m

/-- One pass-1 update of the running maximum, mirror image of `minStep`. -/
def maxStep (f : RowN → ℚ) (m : List (String × ℚ)) (r : RowN) : List (String × ℚ) :=
  let setor := setorOf r
  if setor = "" then m
  else
    match SAD.assocFind m setor with
    | none => SAD.dictInsert m setor (f r)
    | some prev => if f r > prev then SAD.dictInsert m setor (f r) else m

/-- Pass 1 running minimum per *sector* (lines 100-122). -/
def pass1Min (f : RowN → ℚ) (rows : List RowN) : List (String × ℚ) :=
  rows.foldl (minStep f) []

/-- Pass 1 running maximum per *sector* (lines 100-122). -/
def pass1Max (f : RowN → ℚ) (rows : List RowN) : List (String × ℚ) :=
  rows.foldl (maxStep f) []

/-- The (min, max) pair pass 2 uses to normalize a row's demand value
(lines 153-154): both lookups are keyed by the row's *sector* alone. -/
def rangeDem (rows : List RowN) (r : RowN) : ℚ × ℚ :=
  let minv := (SAD.assocFind (pass1Min demVal rows) (setorOf r)).getD 0
  let maxv := (SAD.assocFind (pass1Max demVal rows) (setorOf r)).getD minv
  (minv, maxv)

/-- The demand (resp. salary) values of the rows sharing a given sector —
what pass 1 actually aggregates over for that sector. -/
def sectorVals (f : RowN → ℚ) (rows : List RowN) (sector : String) : List ℚ :=
  rows.filterMap fun r => if setorOf r = sector then some (f r) else none

/-- The demand (resp. salary) values of the rows sharing a given
(year, sector) pair — what claim C6 says pass 1 aggregates over. -/
def perGroupVals (f : RowN → ℚ) (rows : List RowN) (key : String × String) : List ℚ :=
  rows.filterMap fun r => if (anoOf r, setorOf r) = key then some (f r) else none


/-- Folding the running-minimum combination over a value list. -/
def omin (o : Option ℚ) (v : ℚ) : Option ℚ :=
  some (match o with
        | none => v
        | some p => if v < p then v else p)

/-- Folding the running-maximum combination over a value list. -/
def omax (o : Option ℚ) (v : ℚ) : Option ℚ :=
  some (match o with
        | none => v
        | some p => if v > p then v else p)

theorem minStep_lookup (f : RowN → ℚ) (m : List (String × ℚ)) (r : RowN)
    (sector : String) (hs : sector ≠ "") :
    SAD.assocFind (minStep f m r) sector =
      (if setorOf r = sector then omin (SAD.assocFind m sector) (f r)
       else SAD.assocFind m sector) := by
  unfold minStep
  by_cases hr : setorOf r = ""
  · rw [if_pos hr, if_neg (fun h => hs (h.symm.trans hr))]
  · rw [if_neg hr]
    by_cases heq : setorOf r = sector
    · subst heq
      rw [if_pos rfl]
      cases hm : SAD.assocFind m (setorOf r) with
      | none =>
        rw [SAD.assocFind_dictInsert_self]
        simp [omin]
      | some prev =>
        show SAD.assocFind
            (if f r < prev then SAD.dictInsert m (setorOf r) (f r) else m)
            (setorOf r) = omin (some prev) (f r)
        by_cases hlt : f r < prev
        · rw [if_pos hlt, SAD.assocFind_dictInsert_self]
          simp [omin, hlt]
        · rw [if_neg hlt, hm]
          simp [omin, hlt]
    · rw [if_neg heq]
      cases hm : SAD.assocFind m (setorOf r) with
      | none =>
        exact SAD.assocFind_dictInsert_other _ _ _ _ (fun h => heq h.symm)
      | some prev =>
        show SAD.assocFind
            (if f r < prev then SAD.dictInsert m (setorOf r) (f r) else m)
            sector = SAD.assocFind m sector
        by_cases hlt : f r < prev
        · rw [if_pos hlt]
          exact SAD.assocFind_dictInsert_other _ _ _ _ (fun h => heq h.symm)
        · rw [if_neg hlt]

theorem maxStep_lookup (f : RowN → ℚ) (m : List (String × ℚ)) (r : RowN)
    (sector : String) (hs : sector ≠ "") :
    SAD.assocFind (maxStep f m r) sector =
      (if setorOf r = sector then omax (SAD.assocFind m sector) (f r)
       else SAD.assocFind m sector) := by
  unfold maxStep
  by_cases hr : setorOf r = ""
  · rw [if_pos hr, if_neg (fun h => hs (h.symm.trans hr))]
  · rw [if_neg hr]
    by_cases heq : setorOf r = sector
    · subst heq
      rw [if_pos rfl]
      cases hm : SAD.assocFind m (setorOf r) with
      | none =>
        rw [SAD.assocFind_dictInsert_self]
        simp [omax]
      | some prev =>
        show SAD.assocFind
            (if f r > prev then SAD.dictInsert m (setorOf r) (f r) else m)
            (setorOf r) = omax (some prev) (f r)
        by_cases hlt : f r > prev
        · rw [if_pos hlt, SAD.assocFind_dictInsert_self]
          simp [omax, hlt]
        · rw [if_neg hlt, hm]
          simp [omax, hlt]
    · rw [if_neg heq]
      cases hm : SAD.assocFind m (setorOf r) with
      | none =>
        exact SAD.assocFind_dictInsert_other _ _ _ _ (fun h => heq h.symm)
      | some prev =>
        show SAD.assocFind
            (if f r > prev then SAD.dictInsert m (setorOf r) (f r) else m)
            sector = SAD.assocFind m sector
        by_cases hlt : f r > prev
        · rw [if_pos hlt]
          exact SAD.assocFind_dictInsert_other _ _ _ _ (fun h => heq h.symm)
        · rw [if_neg hlt]

theorem pass1Min_lookup (f : RowN → ℚ) (rows : List RowN) (sector : String)
    (hs : sector ≠ "") :
    SAD.assocFind (pass1Min f rows) sector =
      (sectorVals f rows sector).foldl omin none := by
  suffices hgen : ∀ m : List (String × ℚ),
      SAD.assocFind (rows.foldl (minStep f) m) sector =
        (sectorVals f rows sector).foldl omin (SAD.assocFind m sector) by
    have := hgen []
    simpa [SAD.assocFind] using this
  induction rows with
  | nil => intro m; simp [sectorVals]
  | cons r rest ih =>
    intro m
    simp only [List.foldl_cons]
    rw [ih (minStep f m r), minStep_lookup f m r sector hs]
    by_cases heq : setorOf r = sector
    · rw [if_pos heq]
      have : sectorVals f (r :: rest) sector = f r :: sectorVals f rest sector := by
        simp only [sectorVals, List.filterMap_cons]
        rw [if_pos heq]
      rw [this, List.foldl_cons]
    · rw [if_neg heq]
      have : sectorVals f (r :: rest) sector = sectorVals f rest sector := by
        simp only [sectorVals, List.filterMap_cons]
        rw [if_neg heq]
      rw [this]

theorem pass1Max_lookup (f : RowN → ℚ) (rows : List RowN) (sector : String)
    (hs : sector ≠ "") :
    SAD.assocFind (pass1Max f rows) sector =
      (sectorVals f rows sector).foldl omax none := by
  suffices hgen : ∀ m : List (String × ℚ),
      SAD.assocFind (rows.foldl (maxStep f) m) sector =
        (sectorVals f rows sector).foldl omax (SAD.assocFind m sector) by
    have := hgen []
    simpa [SAD.assocFind] using this
  induction rows with
  | nil => intro m; simp [sectorVals]
  | cons r rest ih =>
    intro m
    simp only [List.foldl_cons]
    rw [ih (maxStep f m r), maxStep_lookup f m r sector hs]
    by_cases heq : setorOf r = sector
    · rw [if_pos heq]
      have : sectorVals f (r :: rest) sector = f r :: sectorVals f rest sector := by
        simp only [sectorVals, List.filterMap_cons]
        rw [if_pos heq]
      rw [this, List.foldl_cons]
    · rw [if_neg heq]
      have : sectorVals f (r :: rest) sector = sectorVals f rest sector := by
        simp only [sectorVals, List.filterMap_cons]
        rw [if_neg heq]
      rw [this]

theorem foldl_omin_spec (l : List ℚ) : ∀ (o : Option ℚ) (q : ℚ),
    l.foldl omin o = some q →
    (q ∈ l ∨ o = some q) ∧ (∀ x ∈ l, q ≤ x) ∧ (∀ p, o = some p → q ≤ p) := by
  induction l with
  | nil =>
    intro o q h
    simp only [List.foldl_nil] at h
    refine ⟨Or.inr h, by simp, fun p hp => ?_⟩
    rw [hp] at h
    exact le_of_eq (Option.some.inj h).symm
  | cons v t ih =>
    intro o q h
    simp only [List.foldl_cons] at h
    obtain ⟨hmem, hbound, hprev⟩ := ih (omin o v) q h
    have hv : q ≤ v := by
      cases o with
      | none => exact hprev v rfl
      | some p0 =>
        by_cases hlt : v < p0
        · exact hprev v (by simp [omin, hlt])
        · exact le_trans (hprev p0 (by simp [omin, hlt])) (not_lt.mp hlt)
    refine ⟨?_, ?_, ?_⟩
    · rcases hmem with hq | hq
      · exact Or.inl (List.mem_cons_of_mem _ hq)
      · cases o with
        | none =>
          have : v = q := Option.some.inj hq
          exact Or.inl (this ▸ List.mem_cons_self v t)
        | some p0 =>
          by_cases hlt : v < p0
          · have : v = q := by
              have := hq
              simp only [omin, hlt, if_pos] at this
              exact Option.some.inj (by simpa [omin, hlt] using hq)
            exact Or.inl (this ▸ List.mem_cons_self v t)
          · have : p0 = q := Option.some.inj (by simpa [omin, hlt] using hq)
            exact Or.inr (by rw [this])
    · intro x hx
      rcases List.mem_cons.mp hx with hx | hx
      · exact hx ▸ hv
      · exact hbound x hx
    · intro p hp
      subst hp
      by_cases hlt : v < p
      · exact le_trans (hprev v (by simp [omin, hlt])) (le_of_lt hlt)
      · exact hprev p (by simp [omin, hlt])

theorem foldl_omax_spec (l : List ℚ) : ∀ (o : Option ℚ) (q : ℚ),
    l.foldl omax o = some q →
    (q ∈ l ∨ o = some q) ∧ (∀ x ∈ l, x ≤ q) ∧ (∀ p, o = some p → p ≤ q) := by
  induction l with
  | nil =>
    intro o q h
    simp only [List.foldl_nil] at h
    refine ⟨Or.inr h, by simp, fun p hp => ?_⟩
    rw [hp] at h
    exact le_of_eq (Option.some.inj h)
  | cons v t ih =>
    intro o q h
    simp only [List.foldl_cons] at h
    obtain ⟨hmem, hbound, hprev⟩ := ih (omax o v) q h
    have hv : v ≤ q := by
      cases o with
      | none => exact hprev v rfl
      | some p0 =>
        by_cases hlt : v > p0
        · exact hprev v (by simp [omax, hlt])
        · exact le_trans (not_lt.mp hlt) (hprev p0 (by simp [omax, hlt]))
    refine ⟨?_, ?_, ?_⟩
    · rcases hmem with hq | hq
      · exact Or.inl (List.mem_cons_of_mem _ hq)
      · cases o with
        | none =>
          have : v = q := Option.some.inj hq
          exact Or.inl (this ▸ List.mem_cons_self v t)
        | some p0 =>
          by_cases hlt : v > p0
          · have : v = q := Option.some.inj (by simpa [omax, hlt] using hq)
            exact Or.inl (this ▸ List.mem_cons_self v t)
          · have : p0 = q := Option.some.inj (by simpa [omax, hlt] using hq)
            exact Or.inr (by rw [this])
    · intro x hx
      rcases List.mem_cons.mp hx with hx | hx
      · exact hx ▸ hv
      · exact hbound x hx
    · intro p hp
      subst hp
      by_cases hlt : v > p
      · exact le_trans (le_of_lt hlt) (hprev v (by simp [omax, hlt]))
      · exact hprev p (by simp [omax, hlt])

theorem parse_decimal_eval_one : parse_decimal (some "1") = 1 := by
  have hp : SAD.pyFloatParts (SAD.trimChars (SAD.stripQuotes (SAD.trimChars ("1").data))) =
      some (1, 0) := by decide
  rw [parse_decimal_first_stage (SAD.pyFloatQ_eq_some hp)]
  norm_num [SAD.partsToQ]

theorem parse_decimal_eval_five : parse_decimal (some "5") = 5 := by
  have hp : SAD.pyFloatParts (SAD.trimChars (SAD.stripQuotes (SAD.trimChars ("5").data))) =
      some (5, 0) := by decide
  rw [parse_decimal_first_stage (SAD.pyFloatQ_eq_some hp)]
  norm_num [SAD.partsToQ]

end SAD.normalize_salario_demanda

open SAD.normalize_salario_demanda in
/-- C6 counterexample: with pass-1 rows (2019, A, demand 1) and
(2020, A, demand 5), the (min, max) range used in pass 2 for the first
row is (1, 5) — pooled across both years of sector A — while the rows
sharing the first row's (year, sector) group (2019, A) have demand values
[1], whose min and max are both 1; so the range is not maintained per
(year, sector). -/
theorem C6_counterexample :
    rangeDem
        [⟨some "2019", some "A", some "1", some "10"⟩,
         ⟨some "2020", some "A", some "5", some "50"⟩]
        ⟨some "2019", some "A", some "1", some "10"⟩ = (1, 5) ∧
    perGroupVals demVal
        [⟨some "2019", some "A", some "1", some "10"⟩,
         ⟨some "2020", some "A", some "5", some "50"⟩]
        ("2019", "A") = [1] ∧
    ((1 : ℚ), (5 : ℚ)) ≠ ((1 : ℚ), (1 : ℚ)) := by
  have hs1 : setorOf ⟨some "2019", some "A", some "1", some "10"⟩ = "A" := by decide
  have hs2 : setorOf ⟨some "2020", some "A", some "5", some "50"⟩ = "A" := by decide
  have e1 : demVal ⟨some "2019", some "A", some "1", some "10"⟩ = 1 :=
    parse_decimal_eval_one
  have e5 : demVal ⟨some "2020", some "A", some "5", some "50"⟩ = 5 :=
    parse_decimal_eval_five
  have hsv : sectorVals demVal
      [⟨some "2019", some "A", some "1", some "10"⟩,
       ⟨some "2020", some "A", some "5", some "50"⟩] "A" = [1, 5] := by
    simp [sectorVals, hs1, hs2, e1, e5]
  have hmin : SAD.assocFind (pass1Min demVal
      [⟨some "2019", some "A", some "1", some "10"⟩,
       ⟨some "2020", some "A", some "5", some "50"⟩]) "A" = some 1 := by
    rw [pass1Min_lookup _ _ _ (by decide), hsv]
    norm_num [List.foldl_cons, List.foldl_nil, omin]
  have hmax : SAD.assocFind (pass1Max demVal
      [⟨some "2019", some "A", some "1", some "10"⟩,
       ⟨some "2020", some "A", some "5", some "50"⟩]) "A" = some 5 := by
    rw [pass1Max_lookup _ _ _ (by decide), hsv]
    norm_num [List.foldl_cons, List.foldl_nil, omax]
  have ha1 : anoOf ⟨some "2019", some "A", some "1", some "10"⟩ = "2019" := by decide
  have ha2 : anoOf ⟨some "2020", some "A", some "5", some "50"⟩ = "2020" := by decide
  refine ⟨?_, ?_, ?_⟩
  · simp [rangeDem, hs1, hmin, hmax]
  · simp [perGroupVals, ha1, ha2, hs1, hs2, e1]
  · intro h
    have := congrArg Prod.snd h
    norm_num at this

open SAD.normalize_salario_demanda in
/-- C6 amended: the (min, max) range used in pass 2 is maintained per
*sector* only — the year is ignored: for every non-empty sector, a stored
pass-1 minimum (resp. maximum) of a target column is a member of, and a
lower (resp. upper) bound of, that column's values over exactly the
pass-1 rows sharing that sector, across all years; and pass 2 reads the
range for a row by its sector alone. -/
theorem C6_pass1_range_amended (rows : List RowN) (sector : String) (q : ℚ)
    (hs : sector ≠ "") :
    (SAD.assocFind (pass1Min demVal rows) sector = some q →
      q ∈ sectorVals demVal rows sector ∧
        ∀ x ∈ sectorVals demVal rows sector, q ≤ x) ∧
    (SAD.assocFind (pass1Max demVal rows) sector = some q →
      q ∈ sectorVals demVal rows sector ∧
        ∀ x ∈ sectorVals demVal rows sector, x ≤ q) ∧
    (SAD.assocFind (pass1Min salVal rows) sector = some q →
      q ∈ sectorVals salVal rows sector ∧
        ∀ x ∈ sectorVals salVal rows sector, q ≤ x) ∧
    (SAD.assocFind (pass1Max salVal rows) sector = some q →
      q ∈ sectorVals salVal rows sector ∧
        ∀ x ∈ sectorVals salVal rows sector, x ≤ q) ∧
    (∀ r : RowN, rangeDem rows r =
      ((SAD.assocFind (pass1Min demVal rows) (setorOf r)).getD 0,
       (SAD.assocFind (pass1Max demVal rows) (setorOf r)).getD
         ((SAD.assocFind (pass1Min demVal rows) (setorOf r)).getD 0))) := by
  have hmin : ∀ f : RowN → ℚ, SAD.assocFind (pass1Min f rows) sector = some q →
      q ∈ sectorVals f rows sector ∧ ∀ x ∈ sectorVals f rows sector, q ≤ x := by
    intro f h
    rw [pass1Min_lookup f rows sector hs] at h
    obtain ⟨hmem, hbound, _⟩ := foldl_omin_spec _ none q h
    rcases hmem with hm | hm
    · exact ⟨hm, hbound⟩
    · exact absurd hm (by simp)
  have hmax : ∀ f : RowN → ℚ, SAD.assocFind (pass1Max f rows) sector = some q →
      q ∈ sectorVals f rows sector ∧ ∀ x ∈ sectorVals f rows sector, x ≤ q := by
    intro f h
    rw [pass1Max_lookup f rows sector hs] at h
    obtain ⟨hmem, hbound, _⟩ := foldl_omax_spec _ none q h
    rcases hmem with hm | hm
    · exact ⟨hm, hbound⟩
    · exact absurd hm (by simp)
  exact ⟨hmin demVal, hmax demVal, hmin salVal, hmax salVal, fun r => rfl⟩

open SAD.normalize_salario_demanda in
/-- C6 witness: for the single pass-1 row (2019, A, demand 1), the stored
minimum 1 is a member of and a lower bound of sector A's demand values. -/
theorem C6_witness :
    (1 : ℚ) ∈ sectorVals demVal [⟨some "2019", some "A", some "1", some "10"⟩] "A" ∧
    ∀ x ∈ sectorVals demVal [⟨some "2019", some "A", some "1", some "10"⟩] "A",
      (1 : ℚ) ≤ x := by
  have hs1 : setorOf ⟨some "2019", some "A", some "1", some "10"⟩ = "A" := by decide
  have e1 : demVal ⟨some "2019", some "A", some "1", some "10"⟩ = 1 :=
    parse_decimal_eval_one
  have hmin : SAD.assocFind
      (pass1Min demVal [⟨some "2019", some "A", some "1", some "10"⟩]) "A" = some 1 := by
    rw [pass1Min_lookup _ _ _ (by decide)]
    have hsv : sectorVals demVal [⟨some "2019", some "A", some "1", some "10"⟩] "A" = [1] := by
      simp [sectorVals, hs1, e1]
    rw [hsv]
    simp [List.foldl_cons, List.foldl_nil, omin]
  exact (C6_pass1_range_amended [⟨some "2019", some "A", some "1", some "10"⟩]
    "A" 1 (by decide)).1 hmin

namespace SAD.compute_empregabilidade

/-- The derivation loop of `main` (compute_empregabilidade.py lines
205-214): for each aggregated (ano, setor) key, look the year up in the
rate table; keys whose year is missing are skipped, all others map to
`calc_empregabilidade`. -/
def computeResults (counts : List ((String × String) × ℚ))
    (taxas : List (String × ℚ)) : List ((String × String) × ℚ) :=
  counts.filterMap fun kv =>
    match SAD.assocFind taxas kv.1.1 with
    | none => none
    | some taxa => some (kv.1, calc_empregabilidade kv.2 taxa)

/-- The `missing_taxas` set (lines 206-210): years with no rate entry,
collected once each, in first-encounter order. -/
def missingSet (counts : List ((String × String) × ℚ))
    (taxas : List (String × ℚ)) : List String :=
  counts.foldl
    (fun s kv =>
      match SAD.assocFind taxas kv.1.1 with
      | none => if kv.1.1 ∈ s then s else s ++ [kv.1.1]
      | some _ => s)
    []

/-- `sorted(missing_taxas)` as reported once at the end of the run
(lines 216-220). -/
def missingReport (counts : List ((String × String) × ℚ))
    (taxas : List (String × ℚ)) : List String :=
  (missingSet counts taxas).insertionSort (· ≤ ·)

theorem mem_missingStep_mono (taxas : List (String × ℚ)) (x : String)
    (s : List String) (kv : (String × String) × ℚ) (hx : x ∈ s) :
    x ∈ (match SAD.assocFind taxas kv.1.1 with
         | none => if kv.1.1 ∈ s then s else s ++ [kv.1.1]
         | some _ => s) := by
  cases SAD.assocFind taxas kv.1.1 with
  | none =>
    by_cases hmem : kv.1.1 ∈ s
    · simpa [hmem] using hx
    · simp only [if_neg hmem]
      exact List.mem_append_left _ hx
  | some _ => exact hx

theorem mem_foldl_missing_mono (taxas : List (String × ℚ)) (x : String) :
    ∀ (l : List ((String × String) × ℚ)) (s : List String), x ∈ s →
      x ∈ l.foldl
        (fun s kv =>
          match SAD.assocFind taxas kv.1.1 with
          | none => if kv.1.1 ∈ s then s else s ++ [kv.1.1]
          | some _ => s) s := by
  intro l
  induction l with
  | nil => intro s hs; simpa using hs
  | cons d t ih =>
    intro s hs
    simp only [List.foldl_cons]
    exact ih _ (mem_missingStep_mono taxas x s d hs)

theorem mem_missingSet_foldl (taxas : List (String × ℚ)) (ano : String)
    (hmiss : SAD.assocFind taxas ano = none) :
    ∀ (counts : List ((String × String) × ℚ)) (s : List String),
      (∃ kv ∈ counts, kv.1.1 = ano) →
      ano ∈ counts.foldl
        (fun s kv =>
          match SAD.assocFind taxas kv.1.1 with
          | none => if kv.1.1 ∈ s then s else s ++ [kv.1.1]
          | some _ => s) s := by
  intro counts
  induction counts with
  | nil =>
    rintro s ⟨kv, hkv, _⟩
    exact absurd hkv (List.not_mem_nil kv)
  | cons c rest ih =>
    rintro s ⟨kv, hkv, hano⟩
    rcases List.mem_cons.mp hkv with hkv | hkv
    · subst hkv
      simp only [List.foldl_cons]
      have hstep : ano ∈ (match SAD.assocFind taxas kv.1.1 with
          | none => if kv.1.1 ∈ s then s else s ++ [kv.1.1]
          | some _ => s) := by
        rw [hano, hmiss]
        by_cases hmem : ano ∈ s
        · simp [hmem]
        · simp only [if_neg hmem]
          exact List.mem_append_right _ (List.mem_singleton_self ano)
      exact mem_foldl_missing_mono taxas ano rest _ hstep
    · simp only [List.foldl_cons]
      exact ih _ ⟨kv, hkv, hano⟩

theorem nodup_missingSet (counts : List ((String × String) × ℚ))
    (taxas : List (String × ℚ)) : (missingSet counts taxas).Nodup := by
  suffices hgen : ∀ s : List String, s.Nodup →
      (counts.foldl
        (fun s kv =>
          match SAD.assocFind taxas kv.1.1 with
          | none => if kv.1.1 ∈ s then s else s ++ [kv.1.1]
          | some _ => s) s).Nodup from hgen [] List.nodup_nil
  induction counts with
  | nil => intro s hs; simpa using hs
  | cons c rest ih =>
    intro s hs
    simp only [List.foldl_cons]
    refine ih _ ?_
    cases SAD.assocFind taxas c.1.1 with
    | none =>
      by_cases hmem : c.1.1 ∈ s
      · simpa [hmem] using hs
      · simp only [if_neg hmem]
        refine List.Nodup.append hs (List.nodup_singleton _) ?_
        intro a ha hax
        rw [List.mem_singleton.mp hax] at ha
        exact hmem ha
    | some _ => exact hs

end SAD.compute_empregabilidade

open SAD.compute_empregabilidade in
/-- C8: a (year, sector) group whose year has no rate-table entry is
entirely absent from the employability output, and that year appears
exactly once in the end-of-run report no matter how many groups share
it. -/
theorem C8_missing_rate_year (counts : List ((String × String) × ℚ))
    (taxas : List (String × ℚ)) (ano setor : String)
    (hmiss : SAD.assocFind taxas ano = none)
    (hmem : (ano, setor) ∈ counts.map Prod.fst) :
    (∀ p ∈ computeResults counts taxas, p.1 ≠ (ano, setor)) ∧
    (missingReport counts taxas).count ano = 1 := by
  constructor
  · intro p hp hkey
    rcases List.mem_filterMap.mp hp with ⟨kv, hkv, hstep⟩
    cases htaxa : SAD.assocFind taxas kv.1.1 with
    | none => rw [htaxa] at hstep; exact Option.noConfusion hstep
    | some taxa =>
      rw [htaxa] at hstep
      have hfst : p.1 = kv.1 := (congrArg Prod.fst (Option.some.inj hstep)).symm
      have : kv.1.1 = ano := by
        rw [hkey] at hfst
        exact (congrArg Prod.fst hfst.symm)
      rw [this] at htaxa
      rw [htaxa] at hmiss
      exact Option.noConfusion hmiss
  · have hperm : (missingReport counts taxas).Perm (missingSet counts taxas) :=
      List.perm_insertionSort _ _
    rw [hperm.count_eq]
    rcases List.mem_map.mp hmem with ⟨kv, hkv, hfst⟩
    have hin : ano ∈ missingSet counts taxas :=
      mem_missingSet_foldl taxas ano hmiss counts []
        ⟨kv, hkv, by rw [hfst]⟩
    exact List.count_eq_one_of_mem (nodup_missingSet counts taxas) hin

/-- C8 witness: one group (2019, A) against an empty rate table. -/
theorem C8_witness :
    (∀ p ∈ SAD.compute_empregabilidade.computeResults [(("2019", "A"), 10)] [],
      p.1 ≠ ("2019", "A")) ∧
    (SAD.compute_empregabilidade.missingReport [(("2019", "A"), 10)] []).count "2019" = 1 :=
  C8_missing_rate_year [(("2019", "A"), 10)] [] "2019" "A" rfl (by decide)

namespace SAD

/-- The two encodings `open_text` deals with. -/
inductive PyEncoding
  | utf8
  | latin1
deriving DecidableEq

/-- An open Python text file: the configured encoding and the raw bytes.
`open()` stores both without decoding anything. -/
structure PyTextHandle where
  enc : PyEncoding
  contents : List ℕ
deriving DecidableEq

/-- A UTF-8 continuation byte (`0x80`-`0xBF`). -/
def contB (b : ℕ) : Bool := 0x80 ≤ b && b ≤ 0xBF

/-- UTF-8 validity of a byte sequence (RFC 3629, as CPython's strict
`utf-8` codec checks it: no overlong forms, no surrogates, nothing above
U+10FFFF). -/
def utf8Valid : List ℕ → Bool
  | [] => true
  | b :: rest =>
    if b ≤ 0x7F then utf8Valid rest
    else if 0xC2 ≤ b && b ≤ 0xDF then
      match rest with
      | c1 :: r => contB c1 && utf8Valid r
      | [] => false
    else if 0xE0 ≤ b && b ≤ 0xEF then
      match rest with
      | c1 :: c2 :: r =>
        (if b = 0xE0 then 0xA0 ≤ c1 && c1 ≤ 0xBF
         else if b = 0xED then 0x80 ≤ c1 && c1 ≤ 0x9F
         else contB c1) && contB c2 && utf8Valid r
      | _ => false
    else if 0xF0 ≤ b && b ≤ 0xF4 then
      match rest with
      | c1 :: c2 :: c3 :: r =>
        (if b = 0xF0 then 0x90 ≤ c1 && c1 ≤ 0xBF
         else if b = 0xF4 then 0x80 ≤ c1 && c1 ≤ 0x8F
         else contB c1) && contB c2 && contB c3 && utf8Valid r
      | _ => false
    else false

/-- Whether a byte sequence decodes under an encoding: latin-1 accepts any
byte sequence, UTF-8 only valid ones. -/
def decodes (enc : PyEncoding) (bytes : List ℕ) : Bool :=
  match enc with
  | .utf8 => utf8Valid bytes
  | .latin1 => true

/-- Modelled from Python semantics: `path.open("r", encoding=...)` returns
a `TextIOWrapper` without reading or decoding any file content — decoding
is deferred to read time — so for a readable file `open` never raises
`UnicodeDecodeError`.  The `Except` layer carries exactly the
`UnicodeDecodeError` outcomes the `try` block around `open` can observe:
there are none. -/
def pyOpen (enc : PyEncoding) (bytes : List ℕ) : Except Unit PyTextHandle :=
  Except.ok ⟨enc, bytes⟩

/-- `open_text` (merge_rais_cnaes.py lines 50-56 and
compute_salario_medio_setor.py lines 36-41): try UTF-8 and, only if that
`open` call raises `UnicodeDecodeError`, reopen as latin-1. -/
def open_text (bytes : List ℕ) : PyTextHandle :=
  match pyOpen .utf8 bytes with
  | .ok h => h
  | .error _ =>
    match pyOpen .latin1 bytes with
    | .ok h => h
    | .error _ => ⟨.latin1, bytes⟩

/-- Reading the handle to the end: this is where Python decodes, raising
`UnicodeDecodeError` when the bytes are invalid for the handle's
encoding. -/
def readAll (h : PyTextHandle) : Except Unit (List ℕ) :=
  if decodes h.enc h.contents then Except.ok h.contents else Except.error ()

end SAD

/-- C9: the single byte `0xE9` (latin-1 `é`) fails UTF-8 decoding while
latin-1 would decode it, yet reading the file opened by `open_text`
raises instead of succeeding via the fallback: `open()` performs no
decoding, so the `except UnicodeDecodeError` around it can never fire —
for *every* byte sequence `open_text` returns the UTF-8 handle and the
latin-1 branch is dead code, contradicting the function's own docstring
("tentando UTF-8 e caindo para latin-1 se necessário"). -/
theorem C9_encoding_fallback_dead :
    SAD.open_text [0xE9] = ⟨SAD.PyEncoding.utf8, [0xE9]⟩ ∧
    SAD.readAll (SAD.open_text [0xE9]) = Except.error () ∧
    SAD.decodes SAD.PyEncoding.latin1 [0xE9] = true ∧
    SAD.utf8Valid [0xE9] = false ∧
    ∀ bytes : List ℕ, SAD.open_text bytes = ⟨SAD.PyEncoding.utf8, bytes⟩ := by
  exact ⟨rfl, rfl, rfl, by decide, fun bytes => rfl⟩
